import Mathlib

/-!
# Verification of the property-email processing pipeline

Shallow embedding of `src/main.py`: the field normalizers
(`convert_to_yen`, `convert_floor_to_int`, `convert_japanese_era_date`,
`convert_building_age`), the validity filter, the MIME body decoder,
the Gemini extraction call with its retry wrapper, and the per-message /
per-run drivers.  Python floats are modelled as exact rationals; Python
`None` is `Option.none`; exceptions are explicit outcome constructors.
String primitives (`upper`, `strip`, containment, digit extraction) are
modelled structurally over `List Char`, matching Python's behaviour on
the ASCII range plus exact equality on all other characters.
-/

namespace PropertyParser

/-- Python `int(x)` on a numeric value: truncation toward zero. -/
def pyTrunc (q : ℚ) : ℤ := if 0 ≤ q then ⌊q⌋ else ⌈q⌉

/-- Python `round(x)` on a numeric value: round half to even. -/
def pyRound (q : ℚ) : ℤ :=
  let f := ⌊q⌋
  let r := q - f
  if r < 1/2 then f
  else if 1/2 < r then f + 1
  else if 2 ∣ f then f else f + 1

/-- ASCII decimal digit test (Python `str.isdigit` on the inputs this
pipeline sees). -/
def pyIsDigit (c : Char) : Bool := 48 ≤ c.toNat && c.toNat ≤ 57

/-- ASCII whitespace test (Python `str.strip`'s default set). -/
def pyIsSpace (c : Char) : Bool := c.toNat = 32 || (9 ≤ c.toNat && c.toNat ≤ 13)

/-- Python `str.upper` on one character (ASCII range). -/
def pyUpperChar (c : Char) : Char :=
  if 97 ≤ c.toNat ∧ c.toNat ≤ 122 then Char.ofNat (c.toNat - 32) else c

/-- Python `str.upper`. -/
def pyUpper (s : String) : String := String.mk (s.data.map pyUpperChar)

/-- Python `str.strip()`: remove leading and trailing whitespace. -/
def pyStrip (s : String) : String :=
  String.mk (((s.data.dropWhile pyIsSpace).reverse.dropWhile pyIsSpace).reverse)

/-- Whether the character `c` occurs in `s` (Python `c in s`). -/
def strContainsChar (s : String) (c : Char) : Bool :=
  s.data.any (fun x => x = c)

/-- Boolean prefix test on character lists. -/
def listIsPrefix : List Char → List Char → Bool
  | [], _ => true
  | _ :: _, [] => false
  | a :: as, b :: bs => (a = b : Bool) && listIsPrefix as bs

/-- Whether `sub` occurs as a contiguous subsequence of `l`. -/
def listContainsSeq (sub : List Char) : List Char → Bool
  | [] => sub.isEmpty
  | c :: rest => listIsPrefix sub (c :: rest) || listContainsSeq sub rest

/-- Whether `sub` occurs as a substring of `s` (Python `sub in s`). -/
def hasSubstr (s sub : String) : Bool := listContainsSeq sub.data s.data

/-- The value of a list of decimal digits. -/
def digitsVal (l : List Char) : ℕ := l.foldl (fun n c => 10 * n + (c.toNat - 48)) 0

/-- Python `int(l)` on a string of pure digits: `none` when the string
is empty or holds a non-digit (Python raises `ValueError`). -/
def parseNatDigits (l : List Char) : Option ℕ :=
  if !l.isEmpty && l.all pyIsDigit then some (digitsVal l) else none

/-- Python `int(''.join(filter(str.isdigit, t)))`: the digits of `t`
concatenated and read as a number; `none` when `t` has no digit
(`int('')` raises). -/
def digitsToNat (t : String) : Option ℕ := parseNatDigits (t.data.filter pyIsDigit)

/-- Split a character list into the groups separated by `'.'`. -/
def splitDots : List Char → List (List Char)
  | [] => [[]]
  | c :: rest =>
      let r := splitDots rest
      if c = '.' then [] :: r
      else
        match r with
        | [] => [[c]]
        | g :: gs => (c :: g) :: gs

/-- The shape of a plain decimal literal: sign, integer digits, and
fraction digits with their count.  Computed entirely over `ℕ` so that
concrete instances evaluate in the kernel. -/
def parsePyFloatParts (s : String) : Option (Bool × ℕ × ℕ × ℕ) :=
  let t := (pyStrip s).data
  let (neg, rest) :=
    match t with
    | '-' :: r => (true, r)
    | '+' :: r => (false, r)
    | r => (false, r)
  match splitDots rest with
  | [intPart] =>
      match parseNatDigits intPart with
      | some n => some (neg, n, 0, 0)
      | none => none
  | [intPart, fracPart] =>
      if intPart.isEmpty && fracPart.isEmpty then none
      else
        let ip : Option ℕ := if intPart.isEmpty then some 0 else parseNatDigits intPart
        let fp : Option (ℕ × ℕ) :=
          if fracPart.isEmpty then some (0, 0)
          else match parseNatDigits fracPart with
               | some m => some (m, fracPart.length)
               | none => none
        match ip, fp with
        | some n, some (m, k) => some (neg, n, m, k)
        | _, _ => none
  | _ => none

/-- Python `float(s)` restricted to plain decimal literals: optional
surrounding whitespace, optional sign, digits with an optional
fractional part (`"5"`, `"-3.25"`, `"5."`, `".5"`).  Exponent and
special forms do not occur in the fields this pipeline converts and are
not modelled.  Returns `none` when the string is not such a literal
(Python raises `ValueError`). -/
def parsePyFloat (s : String) : Option ℚ :=
  match parsePyFloatParts s with
  | some (neg, n, m, k) =>
      let mag : ℚ := (n : ℚ) + (m : ℚ) / (10 ^ k)
      some (if neg then -mag else mag)
  | none => none

/-- Python `s.replace(',', '')`. -/
def removeCommas (s : String) : String := String.mk (s.data.filter (fun c => !(c = ',' : Bool)))

/-- A value arriving in a currency field of the extracted JSON:
JSON null, a JSON number (Python `int`/`float`, modelled exactly as a
rational), or a JSON string. -/
inductive CurrencyInput where
  | null : CurrencyInput
  | num (q : ℚ) : CurrencyInput
  | str (s : String) : CurrencyInput
deriving DecidableEq, Repr

/-- `convert_to_yen` (src/main.py:57-74): man-yen → yen.
`None` → `0`; a blank string → `0`; a string has its commas removed and
is parsed as a float; the numeric result is multiplied by 10000 and
passed through Python `int(...)` (truncation toward zero); a
non-numeric string (`ValueError`) → `None`. -/
def convert_to_yen : CurrencyInput → Option ℤ
  | .null => some 0
  | .num q => some (pyTrunc (q * 10000))
  | .str s =>
      if (pyStrip s).isEmpty then some 0
      else
        match parsePyFloat (removeCommas s) with
        | some q => some (pyTrunc (q * 10000))
        | none => none

/-- A value arriving in the `floor_number` field: JSON null, an integer,
or a string.  (A fractional JSON number would go through Python
`str(...)`; such inputs do not occur under the extraction contract and
are not modelled.) -/
inductive FloorInput where
  | null : FloorInput
  | int (n : ℤ) : FloorInput
  | str (s : String) : FloorInput
deriving DecidableEq, Repr

/-- `convert_floor_to_int` (src/main.py:77-109).  Falsy input (`None`,
`0`, `""`) → `None`; an `int` is returned as is; a string is uppercased
and stripped, a pure digit string is read directly, a string containing
`B` or `地下` maps to minus its concatenated digits, any other string
maps to its concatenated digits; when no digit exists the `int('')`
exception is caught and `None` is returned. -/
def convert_floor_to_int : FloorInput → Option ℤ
  | .null => none
  | .int n => if n = 0 then none else some n
  | .str s =>
      if s.isEmpty then none
      else
        let t := pyStrip (pyUpper s)
        if !t.data.isEmpty && t.data.all pyIsDigit then some (digitsVal t.data : ℤ)
        else if strContainsChar t 'B' || hasSubstr t "地下" then
          match digitsToNat t with
          | some m => some (-(m : ℤ))
          | none => none
        else
          match digitsToNat t with
          | some m => some (m : ℤ)
          | none => none

/-- `convert_japanese_era_date` (src/main.py:112-138).  The empty
string (falsy) is returned as is.  Otherwise the string is uppercased
and stripped; if the result contains one of the letters `R`, `H`, `S`
anywhere, the concatenation of its digits is read as the era year `n`
and `"YYYY-01-01"` is emitted with `2018+n` (R), `1988+n` (H) or
`1925+n` (S), the markers checked in that order; with no digit the
`int('')` exception is caught and the uppercased, stripped string is
returned.  Without a marker the uppercased, stripped string is
returned. -/
def convert_japanese_era_date (s : String) : String :=
  if s.isEmpty then s
  else
    let t := pyStrip (pyUpper s)
    if strContainsChar t 'R' || strContainsChar t 'H' || strContainsChar t 'S' then
      match digitsToNat t with
      | some n =>
          let year : ℕ := if strContainsChar t 'R' then 2018 + n
            else if strContainsChar t 'H' then 1988 + n
            else 1925 + n
          toString year ++ "-01-01"
      | none => t
    else t

/-- A value arriving in the `building_age` field. -/
inductive AgeInput where
  | null : AgeInput
  | int (n : ℤ) : AgeInput
  | float (q : ℚ) : AgeInput
  | str (s : String) : AgeInput
deriving DecidableEq, Repr

/-- `convert_building_age` (src/main.py:141-162).  Falsy input (`None`,
`0`, `0.0`, `""`) → `None`; an `int`/`float` goes through Python
`int(...)`; a string is stripped and parsed as a float, then truncated;
a parse failure is caught and yields `None`. -/
def convert_building_age : AgeInput → Option ℤ
  | .null => none
  | .int n => if n = 0 then none else some n
  | .float q => if q = 0 then none else some (pyTrunc q)
  | .str s =>
      if s.isEmpty then none
      else
        match parsePyFloat (pyStrip s) with
        | some q => some (pyTrunc q)
        | none => none

/-! ## Extracted records and the validity filter -/

/-- One mapping of the array returned by the extraction service,
restricted to the fields the pipeline itself inspects or converts; all
other fields are carried through untouched and play no role in any
claim. -/
structure PropertyRecord where
  property_name : Option String
  price : Option ℚ
  road_price : CurrencyInput
  current_rent_income : CurrencyInput
  expected_rent_income : CurrencyInput
  floor_number : FloorInput
  construction_date : Option String
  building_age : AgeInput
deriving DecidableEq, Repr

/-- `filter_valid_properties` (src/main.py:438-452): keep the records
whose `price` is not `None`, in order; dropped records are only
logged. -/
def filter_valid_properties (l : List PropertyRecord) : List PropertyRecord :=
  l.filter (fun r => r.price.isSome)

/-- A record after the unit conversions applied in `save_to_bigquery`
(src/main.py:461-486). -/
structure ConvertedRecord where
  property_name : Option String
  price : Option ℚ
  road_price : Option ℤ
  current_rent_income : Option ℤ
  expected_rent_income : Option ℤ
  floor_number : Option ℤ
  construction_date : Option String
  building_age : Option ℤ
deriving DecidableEq, Repr

/-- The per-record conversion loop of `save_to_bigquery`:
man-yen fields through `convert_to_yen`, `floor_number` through
`convert_floor_to_int`, `construction_date` through
`convert_japanese_era_date` (a JSON null passes through), and
`building_age` through `convert_building_age`. -/
def convert_record (r : PropertyRecord) : ConvertedRecord where
  property_name := r.property_name
  price := r.price
  road_price := convert_to_yen r.road_price
  current_rent_income := convert_to_yen r.current_rent_income
  expected_rent_income := convert_to_yen r.expected_rent_income
  floor_number := convert_floor_to_int r.floor_number
  construction_date := r.construction_date.map convert_japanese_era_date
  building_age := convert_building_age r.building_age

/-! ## MIME tree and `decode_email_body` -/

/-- The `body.data` slot of one MIME part: absent (or falsy), present
but failing base64/UTF-8 decoding, or decoding to a text. -/
inductive BodyData where
  | absent : BodyData
  | decodeErr : BodyData
  | ok (s : String) : BodyData
deriving DecidableEq, Repr

mutual
/-- One node of the Gmail `payload` MIME tree: its `mimeType`, its own
`body.data`, and its child `parts`. -/
inductive MimePart where
  | mk (mimeType : String) (body : BodyData) (parts : MimeParts) : MimePart
/-- The `parts` list of a MIME node. -/
inductive MimeParts where
  | nil : MimeParts
  | cons (p : MimePart) (ps : MimeParts) : MimeParts
end

/-- Boolean prefix test on strings (Python `str.startswith`). -/
def strStartsWith (s pre : String) : Bool := listIsPrefix pre.data s.data

/-- The mutable `message_parts` dictionary of
`find_message_parts_text` (src/main.py:256-286). -/
structure PartsAcc where
  plain : Option String
  html : Option String
deriving DecidableEq, Repr

/-- The decoded text a part's own body contributes: its text when
`body.data` is present and decodes, nothing when the data is absent or
the `try` around the decode catches an error. -/
def bodyText : BodyData → Option String
  | .ok s => some s
  | _ => none

/-- `orD o d`: `o` when it holds a value, else the default `d`. -/
def orD (o d : Option String) : Option String :=
  match o with
  | some s => some s
  | none => d

mutual
/-- `find_message_parts_text` (src/main.py:256-286): walk the part
tree depth-first; a `multipart/*` node only recurses into its
children; any other node first stores its own successfully decoded
`text/plain` or `text/html` body into the accumulator — overwriting
whatever was there, and leaving it unchanged when the data is absent
or its decode raised — and then recurses into its children. -/
def find_message_parts : MimePart → PartsAcc → PartsAcc
  | .mk mimeType body parts, acc =>
      if strStartsWith mimeType "multipart/" then find_message_parts_list parts acc
      else
        let acc1 :=
          if mimeType = "text/plain" then
            { acc with plain := orD (bodyText body) acc.plain }
          else if mimeType = "text/html" then
            { acc with html := orD (bodyText body) acc.html }
          else acc
        find_message_parts_list parts acc1
/-- The `for part in message.get("parts", [])` recursion of
`find_message_parts_text`, threading the shared accumulator left to
right. -/
def find_message_parts_list : MimeParts → PartsAcc → PartsAcc
  | .nil, acc => acc
  | .cons p ps, acc => find_message_parts_list ps (find_message_parts p acc)
end

/-- Python truthiness of the stored body text: a missing entry and the
empty string are both falsy. -/
def pyTruthy : Option String → Option String
  | some s => if s.isEmpty then none else some s
  | none => none

/-- `decode_email_body` (src/main.py:247-308): walk the tree, then
return the collected `text/plain` text when truthy; otherwise the
visible text that `BeautifulSoup` extracts from the collected
`text/html` text when truthy (`stripHtml` is that external call,
`none` modelling a raised parse error which is caught); otherwise the
empty string. -/
def decode_email_body (stripHtml : String → Option String) (payload : MimePart) : String :=
  let mp := find_message_parts payload ⟨none, none⟩
  match pyTruthy mp.plain with
  | some s => s
  | none =>
      match pyTruthy mp.html with
      | some h =>
          match stripHtml h with
          | some txt => txt
          | none => ""
      | none => ""

/-- The contribution of one node's own body to the collection: its
decoded text when the node is a non-multipart part of mime type
`target` whose body decoded, nothing otherwise. -/
def ownText (target mimeType : String) (body : BodyData) : Option String :=
  if strStartsWith mimeType "multipart/" then none
  else if mimeType = target then bodyText body
  else none

mutual
/-- The last successfully decoded leaf of mime type `target` in the
depth-first traversal order of `find_message_parts` (own body before
children, so children take precedence). -/
def lastText (target : String) : MimePart → Option String
  | .mk mimeType body parts =>
      orD (lastTextList target parts) (ownText target mimeType body)
/-- `lastText` over a list of parts, later parts taking precedence. -/
def lastTextList (target : String) : MimeParts → Option String
  | .nil => none
  | .cons p ps => orD (lastTextList target ps) (lastText target p)
end

mutual
/-- Modelled from the spec: the first `text/plain` / `text/html` leaf
found in a depth-first walk, as §4.1 of the spec describes the
collection — own body first, then earlier children over later ones. -/
def firstText (target : String) : MimePart → Option String
  | .mk mimeType body parts =>
      orD (ownText target mimeType body) (firstTextList target parts)
/-- `firstText` over a list of parts, earlier parts taking
precedence. -/
def firstTextList (target : String) : MimeParts → Option String
  | .nil => none
  | .cons p ps => orD (firstText target p) (firstTextList target ps)
end

/-! ## `analyze_email_with_gemini` and its retry wrapper -/

/-- The error an attempt of the decorated body can terminate with:
a transport/provider exception re-raised by the generic handler, or
the `ValueError("Gemini response must be an array")` contract
violation. -/
inductive ErrKind where
  | transport : ErrKind
  | nonArray : ErrKind
deriving DecidableEq, Repr

/-- What one provider call produces: the call itself raises; or it
returns text that is not JSON; or JSON that is not an array; or a JSON
array of records. -/
inductive GeminiResponse where
  | transportError : GeminiResponse
  | notJson : GeminiResponse
  | nonArray : GeminiResponse
  | array (rs : List PropertyRecord) : GeminiResponse
deriving DecidableEq, Repr

/-- The result of one attempt: a normal return, or a raised
exception. -/
inductive AnalyzeOutcome where
  | ok (rs : List PropertyRecord) : AnalyzeOutcome
  | raised (e : ErrKind) : AnalyzeOutcome
deriving DecidableEq, Repr

/-- One execution of the body of `analyze_email_with_gemini`
(src/main.py:316-417).  A provider exception reaches the outer
`except Exception` and is re-raised.  A `json.JSONDecodeError` is
re-raised by the inner handler but caught by the outer
`except json.JSONDecodeError`, which returns `[]` — so a parse
failure neither raises nor retries.  A parsed non-array raises
`ValueError`, re-raised by the outer generic handler. -/
def analyze_once : GeminiResponse → AnalyzeOutcome
  | .transportError => .raised .transport
  | .notJson => .ok []
  | .nonArray => .raised .nonArray
  | .array rs => .ok rs

/-- The tenacity wrapper `@retry(stop=stop_after_attempt(3),
wait=wait_fixed(3), retry=retry_if_exception_type(Exception))`
(src/main.py:310-315): run an attempt; a normal return is final; a
raised exception triggers a new attempt while attempts remain, and
after the final attempt the last error propagates to the caller
(tenacity wraps it in a `RetryError`; the caller handles every
exception alike).  `resp i` is what the provider does on the
`i`-th call (0-based); the second component counts calls made. -/
def analyzeRetry (resp : ℕ → GeminiResponse) (i : ℕ) : ℕ → AnalyzeOutcome × ℕ
  | 0 => (.raised .transport, i)
  | rem + 1 =>
      match analyze_once (resp i) with
      | .ok rs => (.ok rs, i + 1)
      | .raised e =>
          match rem with
          | 0 => (.raised e, i + 1)
          | _ + 1 => analyzeRetry resp (i + 1) rem

/-- `analyze_email_with_gemini` as the caller sees it: the decorated
body under a 3-attempt retry policy. -/
def analyze_email_with_gemini (resp : ℕ → GeminiResponse) : AnalyzeOutcome × ℕ :=
  analyzeRetry resp 0 3

/-! ## Per-message pipeline and run drivers -/

/-- The `email_info` dictionary assembled for a processed message,
reduced to the identity the claims need. -/
structure EmailInfo where
  id : String
deriving DecidableEq, Repr

/-- `prepare_property_data` (src/main.py:419-436): stamp identity and
provenance onto a record.  The fresh UUID and the timestamps play no
role in any claim and are not modelled; the `try` around a pure
dictionary update cannot fail, so the assembly is total. -/
structure StampedRecord where
  record : PropertyRecord
  email_id : String
deriving DecidableEq, Repr

/-- The assembly step for one record. -/
def prepare_property_data (r : PropertyRecord) (info : EmailInfo) : StampedRecord :=
  ⟨r, info.id⟩

/-- `save_to_bigquery` (src/main.py:454-498): an empty batch returns
`False`; otherwise every record is converted and the batch is
inserted; a non-empty row-error list from the store returns `False`,
full success returns `True`.  `insertErrors` is whether the store
reports row errors for this batch. -/
def save_to_bigquery (insertErrors : Bool) (rows : List StampedRecord) : Bool :=
  if rows.isEmpty then false
  else
    let _converted := rows.map (fun r => convert_record r.record)
    if insertErrors then false else true

/-- `'不動産' in body or '物件' in body` (src/main.py:538): the keyword
gate. -/
def keyword_gate (body : String) : Bool :=
  hasSubstr body "不動産" || hasSubstr body "物件"

/-- Everything outside the pipeline's own logic that one message's
processing depends on: its id, its fetched MIME payload, the external
HTML-to-text call, what the provider does on each extraction attempt,
whether the analytical store reports row errors, and whether the ack
call succeeds. -/
structure MessageEnv where
  id : String
  payload : MimePart
  stripHtml : String → Option String
  resp : ℕ → GeminiResponse
  insertErrors : Bool
  ackSucceeds : Bool

/-- Observable effects of one message's processing: whether
`mark_as_read` was invoked (it is best-effort; a failure is only
logged), and how many rows were durably inserted. -/
structure StepTrace where
  ackRequested : Bool
  persisted : ℕ
deriving DecidableEq, Repr

/-- `process_property_email` (src/main.py:514-609).  Decode the body;
an empty body, a failed keyword gate, an empty extraction result and
an empty filtered set each mark the message read and return `None`
(Skipped).  An exception escaping the extraction call is caught at the
message boundary and returns `None` without acking (Failed), as does a
`False` from `save_to_bigquery`.  On success the message is acked
best-effort and its `email_info` is returned. -/
def process_property_email (env : MessageEnv) : Option EmailInfo × StepTrace :=
  let body := decode_email_body env.stripHtml env.payload
  if body.isEmpty then (none, ⟨true, 0⟩)
  else if !keyword_gate body then (none, ⟨true, 0⟩)
  else
    match (analyze_email_with_gemini env.resp).1 with
    | .raised _ => (none, ⟨false, 0⟩)
    | .ok property_data_list =>
        if property_data_list.isEmpty then (none, ⟨true, 0⟩)
        else
          let filtered := filter_valid_properties property_data_list
          if filtered.isEmpty then (none, ⟨true, 0⟩)
          else
            let info : EmailInfo := ⟨env.id⟩
            let processed := filtered.map (fun r => prepare_property_data r info)
            if processed.isEmpty then (none, ⟨true, 0⟩)
            else if save_to_bigquery env.insertErrors processed then
              (some info, ⟨true, processed.length⟩)
            else (none, ⟨false, 0⟩)

/-- Whether a message's records reach the persistence step: a truthy
body that passes the gate, an extraction that returns without raising,
and a non-empty filtered record set. -/
def reaches_persistence (env : MessageEnv) : Bool :=
  let body := decode_email_body env.stripHtml env.payload
  !body.isEmpty && keyword_gate body &&
    match (analyze_email_with_gemini env.resp).1 with
    | .ok rs => !rs.isEmpty && !(filter_valid_properties rs).isEmpty
    | .raised _ => false

/-- The fold body of `process_unread_property_emails`
(src/main.py:632-641): append the `email_info` of a successfully
processed message and bump the counter; a `None` result leaves both
untouched. -/
def processStep (acc : List EmailInfo × ℕ) (env : MessageEnv) : List EmailInfo × ℕ :=
  match (process_property_email env).1 with
  | some info => (acc.1 ++ [info], acc.2 + 1)
  | none => acc

/-- `process_unread_property_emails` (src/main.py:611-648): process
the listed messages in order, collecting processed `email_info`s and
the success count. -/
def process_unread_property_emails (envs : List MessageEnv) : List EmailInfo × ℕ :=
  envs.foldl processStep ([], 0)

/-- The structured result of the invocation boundary (the `message`
text plays no role in any claim). -/
structure RunResult where
  status : String
  processed_emails : ℕ
  total_emails : ℕ
deriving DecidableEq, Repr

/-- `process_property_emails` (src/main.py:650-686): a setup failure
yields an error result; otherwise the run yields a success result with
the count of processed messages and the length of the processed list
(`0, 0` when no message was processed). -/
def process_property_emails (setupFails : Bool) (envs : List MessageEnv) : RunResult :=
  if setupFails then ⟨"error", 0, 0⟩
  else
    let r := process_unread_property_emails envs
    if r.1.isEmpty then ⟨"success", 0, 0⟩
    else ⟨"success", r.2, r.1.length⟩

/-! ## Concrete inputs used to instantiate the theorems -/

/-- A record with a price (survives the validity filter). -/
def sampleRecord : PropertyRecord :=
  ⟨some "Mansion A", some 15800000, .null, .null, .null, .null, none, .null⟩

/-- A record without a price (dropped by the validity filter). -/
def sampleNoPrice : PropertyRecord :=
  ⟨some "Mansion B", none, .null, .null, .null, .null, none, .null⟩

/-- A single-part payload whose body passes the keyword gate. -/
def samplePayload : MimePart := .mk "text/plain" (.ok "この物件は不動産です") .nil

/-- A multipart payload holding two `text/plain` leaves, `"A"` before
`"B"`. -/
def twoPlainPayload : MimePart :=
  .mk "multipart/alternative" .absent
    (.cons (.mk "text/plain" (.ok "A") .nil) (.cons (.mk "text/plain" (.ok "B") .nil) .nil))

/-- A payload with no text part at all: the decoded body is empty. -/
def emptyPayload : MimePart := .mk "application/pdf" .absent .nil

/-- A message whose records reach persistence and whose store insert
reports row errors. -/
def sampleEnvPersistFail : MessageEnv :=
  ⟨"msg-1", samplePayload, fun s => some s, fun _ => .array [sampleRecord], true, true⟩

/-- A message whose decoded body is empty. -/
def sampleEnvEmptyBody : MessageEnv :=
  ⟨"msg-2", emptyPayload, fun s => some s, fun _ => .array [sampleRecord], false, true⟩

/-- A message whose extraction responses never parse as JSON. -/
def sampleEnvParseFail : MessageEnv :=
  ⟨"msg-3", samplePayload, fun s => some s, fun _ => .notJson, false, true⟩

/-! ## Helper lemmas -/

theorem orD_some (s : String) (d : Option String) : orD (some s) d = some s := rfl

theorem orD_none (d : Option String) : orD none d = d := rfl

theorem orD_assoc (a b c : Option String) : orD a (orD b c) = orD (orD a b) c := by
  cases a <;> rfl

theorem orD_none_right (a : Option String) : orD a none = a := by
  cases a <;> rfl

mutual
/-- The accumulator walk computes, for each of the two collected mime
types, the last successfully decoded leaf of the traversal, falling
back to whatever the accumulator already held. -/
theorem find_eq (p : MimePart) (acc : PartsAcc) :
    find_message_parts p acc =
      ⟨orD (lastText "text/plain" p) acc.plain, orD (lastText "text/html" p) acc.html⟩ := by
  match p with
  | .mk t b parts =>
    by_cases hm : strStartsWith t "multipart/" = true
    · rw [find_message_parts, if_pos hm, find_list_eq]
      simp [lastText, ownText, hm, ← orD_assoc, orD_some, orD_none, orD_none_right]
    · simp only [Bool.not_eq_true] at hm
      rw [find_message_parts, if_neg (by simp [hm]), find_list_eq]
      by_cases hp : t = "text/plain"
      · subst hp
        simp [lastText, ownText, hm, ← orD_assoc, orD_some, orD_none, orD_none_right]
      · by_cases hh : t = "text/html"
        · subst hh
          simp [hp, lastText, ownText, hm, ← orD_assoc, orD_some, orD_none, orD_none_right]
        · simp [hp, hh, lastText, ownText, hm, ← orD_assoc, orD_some, orD_none,
            orD_none_right]

/-- `find_eq` for the left-to-right walk over a part list. -/
theorem find_list_eq (ps : MimeParts) (acc : PartsAcc) :
    find_message_parts_list ps acc =
      ⟨orD (lastTextList "text/plain" ps) acc.plain, orD (lastTextList "text/html" ps) acc.html⟩ := by
  match ps with
  | .nil => rfl
  | .cons p ps' =>
    rw [find_message_parts_list, find_eq, find_list_eq]
    simp [lastTextList, ← orD_assoc]
end

/-! ## Claims -/

/-- C9 -/
theorem c9_zero_is_null :
    convert_building_age (.int 0) = none ∧ convert_floor_to_int (.int 0) = none ∧
    convert_building_age .null = none ∧ convert_floor_to_int .null = none ∧
    convert_building_age (.int 1) = some 1 ∧ convert_floor_to_int (.int 1) = some 1 := by
  decide

/-- C8 -/
theorem c8_filter_idempotent :
    ∀ l : List PropertyRecord,
      filter_valid_properties (filter_valid_properties l) = filter_valid_properties l ∧
      (filter_valid_properties l).Sublist l ∧
      ∀ r ∈ l, r.price ≠ none → r ∈ filter_valid_properties l := by
  intro l
  refine ⟨?_, ?_, ?_⟩
  · simp [filter_valid_properties, List.filter_filter]
  · exact List.filter_sublist l
  · intro r hr hp
    simp only [filter_valid_properties, List.mem_filter]
    exact ⟨hr, Option.isSome_iff_ne_none.mpr hp⟩

/-- C8 witness -/
theorem c8_filter_idempotent_witness :
    filter_valid_properties (filter_valid_properties [sampleRecord, sampleNoPrice]) =
      filter_valid_properties [sampleRecord, sampleNoPrice] ∧
    (filter_valid_properties [sampleRecord, sampleNoPrice]).Sublist [sampleRecord, sampleNoPrice] ∧
    sampleRecord ∈ filter_valid_properties [sampleRecord, sampleNoPrice] :=
  ⟨(c8_filter_idempotent [sampleRecord, sampleNoPrice]).1,
   (c8_filter_idempotent [sampleRecord, sampleNoPrice]).2.1,
   (c8_filter_idempotent [sampleRecord, sampleNoPrice]).2.2 sampleRecord (by simp)
     (by simp [sampleRecord])⟩

/-- C5 counterexample -/
theorem c5_era_counterexample :
    convert_japanese_era_date "t5" = "T5" ∧ "T5" ≠ "t5" := by decide

/-- C5 amended -/
theorem c5_era_amended :
    (convert_japanese_era_date "R5" = "2023-01-01" ∧
     convert_japanese_era_date "H10" = "1998-01-01" ∧
     convert_japanese_era_date "S40" = "1965-01-01" ∧
     convert_japanese_era_date "2020-04-01" = "2020-04-01") ∧
    (∀ s : String, s.isEmpty = false →
      strContainsChar (pyStrip (pyUpper s)) 'R' = false →
      strContainsChar (pyStrip (pyUpper s)) 'H' = false →
      strContainsChar (pyStrip (pyUpper s)) 'S' = false →
      convert_japanese_era_date s = pyStrip (pyUpper s)) ∧
    (∀ (s : String) (n : ℕ), s.isEmpty = false →
      strContainsChar (pyStrip (pyUpper s)) 'R' = true →
      digitsToNat (pyStrip (pyUpper s)) = some n →
      convert_japanese_era_date s = toString (2018 + n) ++ "-01-01") ∧
    (∀ (s : String) (n : ℕ), s.isEmpty = false →
      strContainsChar (pyStrip (pyUpper s)) 'R' = false →
      strContainsChar (pyStrip (pyUpper s)) 'H' = true →
      digitsToNat (pyStrip (pyUpper s)) = some n →
      convert_japanese_era_date s = toString (1988 + n) ++ "-01-01") ∧
    (∀ (s : String) (n : ℕ), s.isEmpty = false →
      strContainsChar (pyStrip (pyUpper s)) 'R' = false →
      strContainsChar (pyStrip (pyUpper s)) 'H' = false →
      strContainsChar (pyStrip (pyUpper s)) 'S' = true →
      digitsToNat (pyStrip (pyUpper s)) = some n →
      convert_japanese_era_date s = toString (1925 + n) ++ "-01-01") := by
  refine ⟨by decide, ?_, ?_, ?_, ?_⟩
  · intro s hs hR hH hS
    simp [convert_japanese_era_date, hs, hR, hH, hS]
  · intro s n hs hR hn
    simp [convert_japanese_era_date, hs, hR, hn]
  · intro s n hs hR hH hn
    simp [convert_japanese_era_date, hs, hR, hH, hn]
  · intro s n hs hR hH hS hn
    simp [convert_japanese_era_date, hs, hR, hH, hS, hn]

/-- C5 witness -/
theorem c5_era_amended_witness :
    convert_japanese_era_date "x 1" = "X 1" ∧
    convert_japanese_era_date " r6 " = "2024-01-01" ∧
    convert_japanese_era_date "h20" = "2008-01-01" ∧
    convert_japanese_era_date "s30" = "1955-01-01" :=
  ⟨c5_era_amended.2.1 "x 1" (by decide) (by decide) (by decide) (by decide),
   c5_era_amended.2.2.1 " r6 " 6 (by decide) (by decide) (by decide),
   c5_era_amended.2.2.2.1 "h20" 20 (by decide) (by decide) (by decide) (by decide),
   c5_era_amended.2.2.2.2 "s30" 30 (by decide) (by decide) (by decide) (by decide) (by decide)⟩


/-- C1 counterexample -/
theorem c1_currency_counterexample :
    convert_to_yen (.num (19/100000)) = some 1 ∧
    pyRound ((19/100000 : ℚ) * 10000) = 2 ∧ (1 : ℤ) ≠ 2 := by
  refine ⟨?_, ?_, by decide⟩
  · simp only [convert_to_yen, pyTrunc]
    norm_num
  · unfold pyRound
    norm_num

/-- C1 amended -/
theorem c1_currency_amended :
    convert_to_yen .null = some 0 ∧
    (∀ q : ℚ, convert_to_yen (.num q) = some (pyTrunc (q * 10000))) ∧
    (∀ s : String, (pyStrip s).isEmpty = true → convert_to_yen (.str s) = some 0) ∧
    (∀ (s : String) (q : ℚ), (pyStrip s).isEmpty = false →
      parsePyFloat (removeCommas s) = some q →
      convert_to_yen (.str s) = some (pyTrunc (q * 10000))) ∧
    (∀ s : String, (pyStrip s).isEmpty = false → parsePyFloat (removeCommas s) = none →
      convert_to_yen (.str s) = none) ∧
    (∀ q : ℚ, 0 ≤ q → pyTrunc q = ⌊q⌋) ∧
    (∀ q : ℚ, q < 0 → pyTrunc q = ⌈q⌉) := by
  refine ⟨rfl, fun q => rfl, ?_, ?_, ?_, ?_, ?_⟩
  · intro s hs
    simp [convert_to_yen, hs]
  · intro s q hs hq
    simp [convert_to_yen, hs, hq]
  · intro s hs hq
    simp [convert_to_yen, hs, hq]
  · intro q hq
    simp [pyTrunc, hq]
  · intro q hq
    simp [pyTrunc, not_le.mpr hq]

/-- C1 witness -/
theorem c1_currency_amended_witness :
    convert_to_yen (.num 2) = some (pyTrunc (2 * 10000)) ∧
    convert_to_yen (.str "  ") = some 0 ∧
    convert_to_yen (.str "1,580") = some (pyTrunc (1580 * 10000)) ∧
    convert_to_yen (.str "abc") = none ∧
    pyTrunc (19/10 : ℚ) = ⌊(19/10 : ℚ)⌋ ∧
    pyTrunc (-(19/10) : ℚ) = ⌈(-(19/10) : ℚ)⌉ :=
  ⟨c1_currency_amended.2.1 2,
   c1_currency_amended.2.2.1 "  " (by decide),
   c1_currency_amended.2.2.2.1 "1,580" 1580 (by decide)
     (by simp only [parsePyFloat,
            show parsePyFloatParts (removeCommas "1,580") = some (false, 1580, 0, 0) by decide]
         norm_num),
   c1_currency_amended.2.2.2.2.1 "abc" (by decide) (by decide),
   c1_currency_amended.2.2.2.2.2.1 (19/10) (by norm_num),
   c1_currency_amended.2.2.2.2.2.2 (-(19/10)) (by norm_num)⟩


theorem analyze_ok_step (resp : ℕ → GeminiResponse) (i rem : ℕ) (rs : List PropertyRecord)
    (h : analyze_once (resp i) = .ok rs) :
    analyzeRetry resp i (rem + 1) = (.ok rs, i + 1) := by
  cases rem <;> simp [analyzeRetry, h]

theorem analyze_raised_last (resp : ℕ → GeminiResponse) (i : ℕ) (e : ErrKind)
    (h : analyze_once (resp i) = .raised e) :
    analyzeRetry resp i 1 = (.raised e, i + 1) := by
  simp [analyzeRetry, h]

theorem analyze_raised_step (resp : ℕ → GeminiResponse) (i rem : ℕ) (e : ErrKind)
    (h : analyze_once (resp i) = .raised e) :
    analyzeRetry resp i (rem + 2) = analyzeRetry resp (i + 1) (rem + 1) := by
  conv_lhs => rw [analyzeRetry]
  simp [h]

theorem analyzeRetry_calls_le (resp : ℕ → GeminiResponse) (rem : ℕ) :
    ∀ i, (analyzeRetry resp i rem).2 ≤ i + rem := by
  induction rem with
  | zero =>
      intro i
      simp [analyzeRetry]
  | succ m ih =>
      intro i
      cases h : analyze_once (resp i) with
      | ok rs =>
          rw [analyze_ok_step resp i m rs h]
          show i + 1 ≤ i + (m + 1)
          omega
      | raised e =>
          cases m with
          | zero =>
              rw [analyze_raised_last resp i e h]
          | succ m' =>
              rw [analyze_raised_step resp i m' e h]
              have := ih (i + 1)
              omega

theorem analyzeRetry_ok_src (resp : ℕ → GeminiResponse) (rem : ℕ) :
    ∀ i rs n, analyzeRetry resp i rem = (.ok rs, n) →
      ∃ j, i ≤ j ∧ j < i + rem ∧ analyze_once (resp j) = .ok rs := by
  induction rem with
  | zero =>
      intro i rs n h
      simp [analyzeRetry] at h
  | succ m ih =>
      intro i rs n h
      cases ha : analyze_once (resp i) with
      | ok rs' =>
          rw [analyze_ok_step resp i m rs' ha] at h
          injection h with h1 h2
          injection h1 with h3
          exact ⟨i, le_refl i, by omega, by rw [ha, h3]⟩
      | raised e =>
          cases m with
          | zero =>
              rw [analyze_raised_last resp i e ha] at h
              injection h with h1 h2
              simp at h1
          | succ m' =>
              rw [analyze_raised_step resp i m' e ha] at h
              obtain ⟨j, hj1, hj2, hj3⟩ := ih (i + 1) rs n h
              exact ⟨j, by omega, by omega, hj3⟩


/-- C6 -/
theorem c6_non_array_rejected :
    analyze_once .nonArray = .raised .nonArray ∧
    (∀ resp : ℕ → GeminiResponse,
      resp 0 = .nonArray → resp 1 = .nonArray → resp 2 = .nonArray →
      analyze_email_with_gemini resp = (.raised .nonArray, 3)) ∧
    (∀ (resp : ℕ → GeminiResponse) (rs : List PropertyRecord) (n : ℕ),
      analyze_email_with_gemini resp = (.ok rs, n) →
      (∃ i, i < 3 ∧ resp i = .array rs) ∨ (rs = [] ∧ ∃ i, i < 3 ∧ resp i = .notJson)) := by
  refine ⟨rfl, ?_, ?_⟩
  · intro resp h0 h1 h2
    have s1 : analyzeRetry resp 0 3 = analyzeRetry resp 1 2 :=
      analyze_raised_step resp 0 1 .nonArray (by rw [h0]; rfl)
    have s2 : analyzeRetry resp 1 2 = analyzeRetry resp 2 1 :=
      analyze_raised_step resp 1 0 .nonArray (by rw [h1]; rfl)
    have s3 : analyzeRetry resp 2 1 = (.raised .nonArray, 3) :=
      analyze_raised_last resp 2 .nonArray (by rw [h2]; rfl)
    exact s1.trans (s2.trans s3)
  · intro resp rs n h
    obtain ⟨j, hj0, hj3, hj⟩ := analyzeRetry_ok_src resp 3 0 rs n h
    cases hr : resp j with
    | transportError => simp [analyze_once, hr] at hj
    | notJson =>
        simp [analyze_once, hr] at hj
        exact Or.inr ⟨hj, j, by omega, hr⟩
    | nonArray => simp [analyze_once, hr] at hj
    | array rs' =>
        simp [analyze_once, hr] at hj
        exact Or.inl ⟨j, by omega, by rw [hr, hj]⟩

/-- C6 witness -/
theorem c6_non_array_rejected_witness :
    analyze_email_with_gemini (fun _ => .nonArray) = (.raised .nonArray, 3) ∧
    ((∃ i, i < 3 ∧ (fun _ => GeminiResponse.array [sampleRecord]) i = .array [sampleRecord]) ∨
      ([sampleRecord] = ([] : List PropertyRecord) ∧
        ∃ i, i < 3 ∧ (fun _ => GeminiResponse.array [sampleRecord]) i = .notJson)) :=
  ⟨c6_non_array_rejected.2.1 (fun _ => .nonArray) rfl rfl rfl,
   c6_non_array_rejected.2.2 (fun _ => .array [sampleRecord]) [sampleRecord] 1 (by decide)⟩


/-- C2 counterexample -/
theorem c2_retry_counterexample :
    analyze_email_with_gemini (fun _ => .notJson) = (.ok [], 1) ∧
    (AnalyzeOutcome.ok [] ≠ AnalyzeOutcome.raised .transport) ∧
    (AnalyzeOutcome.ok [] ≠ AnalyzeOutcome.raised .nonArray) ∧
    (1 : ℕ) ≠ 3 ∧
    process_property_email sampleEnvParseFail = (none, ⟨true, 0⟩) := by
  decide

/-- C2 amended -/
theorem c2_retry_amended :
    (∀ resp : ℕ → GeminiResponse, (analyze_email_with_gemini resp).2 ≤ 3) ∧
    (∀ (resp : ℕ → GeminiResponse) (e0 e1 e2 : ErrKind),
      analyze_once (resp 0) = .raised e0 → analyze_once (resp 1) = .raised e1 →
      analyze_once (resp 2) = .raised e2 →
      analyze_email_with_gemini resp = (.raised e2, 3)) ∧
    (∀ resp : ℕ → GeminiResponse, resp 0 = .notJson →
      analyze_email_with_gemini resp = (.ok [], 1)) ∧
    (∀ env : MessageEnv,
      (decode_email_body env.stripHtml env.payload).isEmpty = false →
      keyword_gate (decode_email_body env.stripHtml env.payload) = true →
      env.resp 0 = .notJson →
      process_property_email env = (none, ⟨true, 0⟩)) := by
  refine ⟨?_, ?_, ?_, ?_⟩
  · intro resp
    have h := analyzeRetry_calls_le resp 3 0
    simpa using h
  · intro resp e0 e1 e2 h0 h1 h2
    have s1 : analyzeRetry resp 0 3 = analyzeRetry resp 1 2 :=
      analyze_raised_step resp 0 1 e0 h0
    have s2 : analyzeRetry resp 1 2 = analyzeRetry resp 2 1 :=
      analyze_raised_step resp 1 0 e1 h1
    have s3 : analyzeRetry resp 2 1 = (.raised e2, 3) :=
      analyze_raised_last resp 2 e2 h2
    exact s1.trans (s2.trans s3)
  · intro resp h0
    exact analyze_ok_step resp 0 2 [] (by rw [h0]; rfl)
  · intro env h1 h2 h3
    have ha : analyze_email_with_gemini env.resp = (.ok [], 1) :=
      analyze_ok_step env.resp 0 2 [] (by rw [h3]; rfl)
    simp [process_property_email, h1, h2, ha]

/-- C2 witness -/
theorem c2_retry_amended_witness :
    (analyze_email_with_gemini (fun _ => .transportError)).2 ≤ 3 ∧
    analyze_email_with_gemini (fun _ => .transportError) = (.raised .transport, 3) ∧
    analyze_email_with_gemini (fun _ => .notJson) = (.ok [], 1) ∧
    process_property_email sampleEnvParseFail = (none, ⟨true, 0⟩) :=
  ⟨c2_retry_amended.1 (fun _ => .transportError),
   c2_retry_amended.2.1 (fun _ => .transportError) .transport .transport .transport rfl rfl rfl,
   c2_retry_amended.2.2.1 (fun _ => .notJson) rfl,
   c2_retry_amended.2.2.2 sampleEnvParseFail (by decide) (by decide) rfl⟩


/-- C3 -/
theorem c3_persist_failure :
    ∀ (env : MessageEnv) (envs : List MessageEnv),
      reaches_persistence env = true → env.insertErrors = true →
      process_property_email env = (none, ⟨false, 0⟩) ∧
      process_unread_property_emails (envs ++ [env]) = process_unread_property_emails envs := by
  intro env envs hr he
  have hmain : process_property_email env = (none, ⟨false, 0⟩) := by
    unfold reaches_persistence at hr
    cases hA : (analyze_email_with_gemini env.resp).1 with
    | raised e => rw [hA] at hr; simp at hr
    | ok rs =>
        rw [hA] at hr
        simp only [Bool.and_eq_true, Bool.not_eq_true'] at hr
        obtain ⟨⟨hb, hg⟩, hrs, hf⟩ := hr
        have hproc : (filter_valid_properties rs).map
            (fun r => prepare_property_data r ⟨env.id⟩) ≠ [] := by
          intro hcon
          rw [List.map_eq_nil_iff] at hcon
          rw [hcon] at hf
          simp at hf
        simp [process_property_email, hb, hg, hA, hrs, hf, save_to_bigquery, he,
          List.isEmpty_iff, hproc]
  refine ⟨hmain, ?_⟩
  unfold process_unread_property_emails
  rw [List.foldl_append]
  simp [processStep, hmain]

/-- C3 witness -/
theorem c3_persist_failure_witness :
    process_property_email sampleEnvPersistFail = (none, ⟨false, 0⟩) ∧
    process_unread_property_emails ([] ++ [sampleEnvPersistFail]) =
      process_unread_property_emails [] :=
  c3_persist_failure sampleEnvPersistFail [] (by decide) rfl

/-- C7 -/
theorem c7_skip_paths :
    ∀ env : MessageEnv,
      ((decode_email_body env.stripHtml env.payload).isEmpty = true ∨
       keyword_gate (decode_email_body env.stripHtml env.payload) = false ∨
       (analyze_email_with_gemini env.resp).1 = .ok [] ∨
       (∃ rs, (analyze_email_with_gemini env.resp).1 = .ok rs ∧
         filter_valid_properties rs = [])) →
      process_property_email env = (none, ⟨true, 0⟩) := by
  intro env h
  by_cases hb : (decode_email_body env.stripHtml env.payload).isEmpty
  · simp [process_property_email, hb]
  · simp only [Bool.not_eq_true] at hb
    by_cases hg : keyword_gate (decode_email_body env.stripHtml env.payload)
    · rcases h with h | h | h | ⟨rs, hA, hf⟩
      · rw [h] at hb; cases hb
      · rw [hg] at h; cases h
      · simp [process_property_email, hb, hg, h]
      · cases rs with
        | nil => simp [process_property_email, hb, hg, hA]
        | cons r rs' => simp [process_property_email, hb, hg, hA, hf]
    · simp only [Bool.not_eq_true] at hg
      simp [process_property_email, hb, hg]

/-- C7 witness -/
theorem c7_skip_paths_witness :
    process_property_email sampleEnvEmptyBody = (none, ⟨true, 0⟩) :=
  c7_skip_paths sampleEnvEmptyBody (Or.inl (by decide))

theorem processFold_count (envs : List MessageEnv) :
    ∀ acc : List EmailInfo × ℕ,
      (envs.foldl processStep acc).2 =
        acc.2 + envs.countP (fun e => ((process_property_email e).1).isSome) ∧
      (envs.foldl processStep acc).1.length =
        acc.1.length + envs.countP (fun e => ((process_property_email e).1).isSome) := by
  induction envs with
  | nil =>
      intro acc
      simp
  | cons e es ih =>
      intro acc
      rw [List.foldl_cons, List.countP_cons]
      cases hp : (process_property_email e).1 with
      | none =>
          simp only [processStep, hp]
          simp [hp, (ih acc).1, (ih acc).2]
      | some info =>
          simp only [processStep, hp]
          have h1 := (ih (acc.1 ++ [info], acc.2 + 1)).1
          have h2 := (ih (acc.1 ++ [info], acc.2 + 1)).2
          simp only [List.length_append, List.length_singleton] at h2
          refine ⟨?_, ?_⟩
          · simp [hp, h1]
            omega
          · simp [hp, h2]
            omega

/-- C10 -/
theorem c10_run_summary :
    ∀ (setupFails : Bool) (envs : List MessageEnv),
      ((process_property_emails setupFails envs).status = "success" →
        (process_property_emails setupFails envs).processed_emails =
          (process_property_emails setupFails envs).total_emails) ∧
      ((process_property_emails false envs).processed_emails =
        envs.countP (fun e => ((process_property_email e).1).isSome)) ∧
      ((∀ env ∈ envs, (process_property_email env).1 = none) →
        process_property_emails false envs = ⟨"success", 0, 0⟩) := by
  intro setupFails envs
  have hc := processFold_count envs ([], 0)
  simp only [List.length_nil, Nat.zero_add] at hc
  refine ⟨?_, ?_, ?_⟩
  · intro hs
    cases setupFails with
    | true => simp [process_property_emails] at hs ⊢
    | false =>
        unfold process_property_emails
        by_cases hempty : (process_unread_property_emails envs).1.isEmpty
        · simp [hempty]
        · simp only [Bool.false_eq_true, if_false, hempty]
          show (process_unread_property_emails envs).2 =
            (process_unread_property_emails envs).1.length
          unfold process_unread_property_emails
          omega
  · unfold process_property_emails
    by_cases hempty : (process_unread_property_emails envs).1.isEmpty
    · have : (process_unread_property_emails envs).1.length = 0 := by
        rw [List.isEmpty_iff] at hempty
        simp [hempty]
      unfold process_unread_property_emails at this
      simp [hempty]
      omega
    · simp only [Bool.false_eq_true, if_false, hempty]
      show (process_unread_property_emails envs).2 = _
      unfold process_unread_property_emails
      omega
  · intro hall
    have hzero : envs.countP (fun e => ((process_property_email e).1).isSome) = 0 := by
      rw [List.countP_eq_zero]
      intro e he
      rw [hall e he]
      simp
    have hlen : (process_unread_property_emails envs).1.length = 0 := by
      unfold process_unread_property_emails
      omega
    have hnil : (process_unread_property_emails envs).1 = [] := List.length_eq_zero.mp hlen
    simp [process_property_emails, hnil]

/-- C10 witness -/
theorem c10_run_summary_witness :
    ((process_property_emails false [sampleEnvEmptyBody]).status = "success" →
      (process_property_emails false [sampleEnvEmptyBody]).processed_emails =
        (process_property_emails false [sampleEnvEmptyBody]).total_emails) ∧
    process_property_emails false [sampleEnvEmptyBody] = ⟨"success", 0, 0⟩ :=
  ⟨(c10_run_summary false [sampleEnvEmptyBody]).1,
   (c10_run_summary false [sampleEnvEmptyBody]).2.2 (by
      intro env henv
      rw [List.mem_singleton] at henv
      rw [henv]
      decide)⟩


/-- C4 counterexample -/
theorem c4_decode_counterexample :
    decode_email_body (fun s => some s) twoPlainPayload = "B" ∧
    firstText "text/plain" twoPlainPayload = some "A" ∧
    ("B" : String) ≠ "A" := by
  decide

/-- C4 amended -/
theorem c4_decode_amended :
    (∀ (stripHtml : String → Option String) (payload : MimePart),
      decode_email_body stripHtml payload =
        (match pyTruthy (lastText "text/plain" payload) with
         | some s => s
         | none =>
             match pyTruthy (lastText "text/html" payload) with
             | some h =>
                 match stripHtml h with
                 | some txt => txt
                 | none => ""
             | none => "")) ∧
    (∀ (target mimeType : String) (ps : MimeParts),
      lastText target (.mk mimeType .decodeErr ps) = lastTextList target ps) := by
  constructor
  · intro stripHtml payload
    unfold decode_email_body
    rw [find_eq payload ⟨none, none⟩]
    simp only [orD_none_right]
  · intro target mimeType ps
    have hown : ownText target mimeType .decodeErr = none := by
      unfold ownText bodyText
      split
      · rfl
      · split <;> rfl
    rw [lastText, hown, orD_none_right]


end PropertyParser
